import Mathlib

/-!
Verification of the core packaging pipeline of nwjs-builder-phoenix,
embedded from src/lib/Builder.ts and src/lib/util/archive.ts.
Pure decision logic is translated directly; filesystem and subprocess
effects are modelled as explicit traces of operations.
-/

deriving instance DecidableEq for Except

namespace NwBuilder

/-- Errors thrown by the pipeline; each constructor mirrors one thrown
message constant of the source (ERROR_NO_TASK, ERROR_UNKNOWN_PLATFORM,
ERROR_UNKNOWN_TARGET, ERROR_UNKNOWN_EXTENSION, ERROR_PATH_NOT_FOUND with
the offending path, ERROR_EXIT_CODE with the subprocess exit code). -/
inductive BuildErr where
  | noTask
  | unknownPlatform
  | unknownTarget
  | unknownExtension
  | pathNotFound (path : String)
  | exitCode (code : Nat)
  deriving DecidableEq, Repr

/-- Builder options after the constructor merged the caller's options over
Builder.DEFAULT_OPTIONS (IBuilderOptions of Builder.ts). -/
structure BuilderOptions where
  win : Bool
  mac : Bool
  linux : Bool
  x86 : Bool
  x64 : Bool
  chromeApp : Bool
  mirror : String
  concurrent : Bool
  mute : Bool
  deriving DecidableEq, Repr

/-- Dynamic flag lookup, as in the untyped options[platform] and
options[arch] accesses inside Builder.build. -/
def optionFlag (o : BuilderOptions) : String → Bool
  | "win" => o.win
  | "mac" => o.mac
  | "linux" => o.linux
  | "x86" => o.x86
  | "x64" => o.x64
  | _ => false

/-- Platform tokens iterated by Builder.build, in source order. -/
def platformNames : List String := ["win", "mac", "linux"]

/-- Architecture tokens iterated by Builder.build, in source order. -/
def archNames : List String := ["x86", "x64"]

/-- Task matrix built by Builder.build: the nested maps over
platformNames and archNames push a (platform, arch) pair exactly when
both flags are enabled. -/
def buildTasks (o : BuilderOptions) : List (String × String) :=
  (platformNames.map (fun platform =>
    archNames.filterMap (fun arch =>
      if optionFlag o platform && optionFlag o arch then some (platform, arch)
      else none))).flatten

/-- Cross product of the enabled platforms and the enabled architectures,
in declaration order: the form in which the specification states the task
matrix. -/
def enabledCross (o : BuilderOptions) : List (String × String) :=
  (platformNames.filter (optionFlag o)).flatMap (fun platform =>
    (archNames.filter (optionFlag o)).map (fun arch => (platform, arch)))

/-- Builder.build up to the empty-matrix check: an empty task list throws
ERROR_NO_TASK before any task pipeline is started; otherwise the tasks
that will run (sequentially or concurrently) are returned. -/
def buildPlan (o : BuilderOptions) : Except BuildErr (List (String × String)) :=
  if (buildTasks o).length = 0 then .error .noTask else .ok (buildTasks o)

theorem filterMap_pair_cross {α : Type} (f : α → Bool) (p : α) (as : List α) :
    (as.filterMap (fun a => if f p && f a then some (p, a) else none)) =
      if f p then (as.filter f).map (fun a => (p, a)) else [] := by
  induction as with
  | nil => cases hf : f p <;> simp
  | cons a as ih => cases hf : f p <;> cases ha : f a <;>
      simp_all [List.filter_cons]

theorem map_join_cross {α : Type} (f : α → Bool) (ps as : List α) :
    (ps.map (fun p =>
      as.filterMap (fun a => if f p && f a then some (p, a) else none))).flatten =
    (ps.filter f).flatMap (fun p => (as.filter f).map (fun a => (p, a))) := by
  induction ps with
  | nil => simp
  | cons p ps ih =>
    rw [List.map_cons, List.flatten_cons, ih, filterMap_pair_cross, List.filter_cons]
    cases hf : f p <;> simp [hf]

/-- C1: for every combination of the boolean platform flags (win, mac,
linux) and architecture flags (x86, x64), the task matrix computed by
Builder.build equals exactly the cross product of enabled platforms and
enabled architectures, enumerated in the order win,mac,linux by x86,x64;
if that matrix is empty, build fails with ERROR_NO_TASK before any task
runs (buildPlan returns the error instead of a task list). -/
theorem build_task_matrix_cross (o : BuilderOptions) :
    buildTasks o = enabledCross o ∧
    (buildPlan o = .error .noTask ↔ enabledCross o = []) ∧
    (enabledCross o ≠ [] → buildPlan o = .ok (enabledCross o)) := by
  have ht : buildTasks o = enabledCross o :=
    map_join_cross (optionFlag o) platformNames archNames
  refine ⟨ht, ?_, ?_⟩
  · unfold buildPlan
    rw [ht]
    rcases h : enabledCross o with _ | ⟨t, ts⟩ <;> simp
  · intro hne
    unfold buildPlan
    rw [ht]
    simp [List.length_eq_zero, hne]

/-- Witness for build_task_matrix_cross at a configuration with win, linux
and x64 enabled: tasks are (win, x64) then (linux, x64) and the plan runs
them. -/
theorem build_task_matrix_cross_witness :
    buildTasks ⟨true, false, true, false, true, false, "m", false, true⟩ =
        [("win", "x64"), ("linux", "x64")] ∧
    enabledCross ⟨true, false, true, false, true, false, "m", false, true⟩ ≠ [] ∧
    buildPlan ⟨true, false, true, false, true, false, "m", false, true⟩ =
        .ok [("win", "x64"), ("linux", "x64")] := by
  have h := build_task_matrix_cross ⟨true, false, true, false, true, false, "m", false, true⟩
  exact ⟨by decide, by decide, h.2.2 (by decide)⟩

/-- Platform tokens accepted by the switches of copyFiles and
buildDirTarget; every other token throws ERROR_UNKNOWN_PLATFORM. -/
def recognizedPlatforms : List String :=
  ["win32", "win", "linux", "darwin", "osx", "mac"]

/-- Stripped manifest written by copyFiles over package.json: the
for-in loop copies every own top-level key whose name is absent from
config.strippedProperties (indexOf == -1) and drops the rest. The
manifest object is embedded as an association list with one entry per
top-level key. -/
def stripManifest (strippedProperties : List String)
    (pkg : List (String × α)) : List (String × α) :=
  pkg.filter (fun kv => !(strippedProperties.contains kv.1))

/-- Manifest written into the bundle by copyFiles: in packed mode the
platform switch runs first (and throws ERROR_UNKNOWN_PLATFORM for other
tokens); in every successful branch, packed or not, the same stripped
manifest is written at the end. -/
def copyFilesManifest (platform : String) (packed : Bool)
    (strippedProperties : List String) (pkg : List (String × α)) :
    Except BuildErr (List (String × α)) :=
  if packed then
    match platform with
    | "win32" | "win" | "linux" =>
      .ok (stripManifest strippedProperties pkg)
    | "darwin" | "osx" | "mac" =>
      .ok (stripManifest strippedProperties pkg)
    | _ => .error .unknownPlatform
  else
    .ok (stripManifest strippedProperties pkg)

/-- C3: in every mode (packed and unpacked, for every recognized
platform), the manifest written into the bundle is exactly the project
manifest with every key listed in strippedProperties removed and every
other key copied verbatim with its value; the embedded manifest never
contains a stripped key. -/
theorem bundle_manifest_stripped (platform : String) (packed : Bool)
    (strippedProperties : List String) (pkg : List (String × α))
    (k : String) (v : α)
    (h : packed = false ∨ platform ∈ recognizedPlatforms) :
    copyFilesManifest platform packed strippedProperties pkg =
      .ok (stripManifest strippedProperties pkg) ∧
    ((k, v) ∈ stripManifest strippedProperties pkg ↔
      (k, v) ∈ pkg ∧ strippedProperties.contains k = false) ∧
    (strippedProperties.contains k = true →
      ∀ w : α, (k, w) ∉ stripManifest strippedProperties pkg) := by
  refine ⟨?_, ?_, ?_⟩
  · rcases h with h | h
    · simp [copyFilesManifest, h]
    · fin_cases h <;> cases packed <;> rfl
  · simp [stripManifest, List.mem_filter]
  · intro hk w hw
    simp [stripManifest, List.mem_filter] at hw
    simp at hk
    exact hw.2 hk
/-- Witness for bundle_manifest_stripped: packed mac build with key
build flagged for stripping; the bundle manifest keeps name verbatim and
never contains build. -/
theorem bundle_manifest_stripped_witness :
    copyFilesManifest "mac" true ["build"] [("name", (1 : Nat)), ("build", 2)] =
      .ok [("name", 1)] ∧
    ("build", (2 : Nat)) ∉ stripManifest ["build"] [("name", (1 : Nat)), ("build", 2)] := by
  have h := bundle_manifest_stripped "mac" true ["build"]
      [("name", (1 : Nat)), ("build", 2)] "build" 2 (Or.inr (by decide))
  exact ⟨h.1.trans (by decide), h.2.2 (by decide) 2⟩

/-- Operations issued against the filesystem and the external archiver
during extraction (util/archive.ts): one archiver subprocess run per
extractOp, one removeAsync per removeOp. -/
inductive ArcOp where
  | extractOp (archive dest : String)
  | removeOp (path : String)
  deriving DecidableEq, Repr

/-- Suffix test of JS String.prototype.endsWith, as used by
extractGeneric, expressed on the character sequence. -/
def endsWithS (s suffix : String) : Bool :=
  suffix.data.isSuffixOf s.data

/-- Slice archive.slice(0, -n): the string minus its last n characters. -/
def dropLastChars (s : String) (n : Nat) : String :=
  String.mk (s.data.take (s.data.length - n))

/-- path.basename: the final component of a slash-separated path (no
trailing slash occurs at the call site). -/
def basename (p : String) : String :=
  String.mk ((p.data.reverse.takeWhile (fun c => c ≠ '/')).reverse)

/-- path.join of a directory and a file name, as used for the
intermediate tar path in extractTarGz. -/
def joinPath (dir name : String) : String := dir ++ "/" ++ name

/-- Archiver trace of extract: a single subprocess invocation on the
archive (exit-code handling is modelled separately by extractRun). -/
def extractOps (archive dest : String) : List ArcOp :=
  [.extractOp archive dest]

/-- Archiver trace of extractTarGz: outer extraction of the .gz, inner
extraction of the uncompressed tar (the archive path minus its last
three characters, resolved under dest), then removal of that tar. -/
def extractTarGzOps (archive dest : String) : List ArcOp :=
  let tar := joinPath dest (basename (dropLastChars archive 3))
  extractOps archive dest ++ extractOps tar dest ++ [.removeOp tar]

/-- extractGeneric: dispatch on the filename suffix; .zip goes to
extract, tar.gz goes to extractTarGz, anything else throws
ERROR_UNKNOWN_EXTENSION before any archiver invocation. Returns the trace
of operations performed together with the result. -/
def extractGenericRun (archive dest : String) :
    List ArcOp × Except BuildErr String :=
  if endsWithS archive ".zip" then (extractOps archive dest, .ok dest)
  else if endsWithS archive "tar.gz" then (extractTarGzOps archive dest, .ok dest)
  else ([], .error .unknownExtension)

/-- C4: extraction dispatches on the filename suffix. A .zip suffix
yields one plain extraction; a tar.gz suffix yields the outer extraction,
the inner extraction of the intermediate uncompressed tar, and then the
deletion of that tar (strictly after the inner extraction); any other
suffix fails with ERROR_UNKNOWN_EXTENSION with an empty trace, so the
archiver is never invoked. -/
theorem extract_generic_dispatch (archive dest : String) :
    (endsWithS archive ".zip" = true →
      extractGenericRun archive dest = ([.extractOp archive dest], .ok dest)) ∧
    (endsWithS archive ".zip" = false → endsWithS archive "tar.gz" = true →
      extractGenericRun archive dest =
        ([.extractOp archive dest,
          .extractOp (joinPath dest (basename (dropLastChars archive 3))) dest,
          .removeOp (joinPath dest (basename (dropLastChars archive 3)))], .ok dest)) ∧
    (endsWithS archive ".zip" = false → endsWithS archive "tar.gz" = false →
      extractGenericRun archive dest = ([], .error .unknownExtension)) := by
  refine ⟨fun hz => ?_, fun hz ht => ?_, fun hz ht => ?_⟩ <;>
    simp [extractGenericRun, extractTarGzOps, extractOps, hz]
  · simp [ht]
  · simp [ht]

/-- Witness for extract_generic_dispatch on app.zip, runtime.tar.gz and
archive.rar. -/
theorem extract_generic_dispatch_witness :
    extractGenericRun "app.zip" "out" = ([.extractOp "app.zip" "out"], .ok "out") ∧
    extractGenericRun "runtime.tar.gz" "out" =
      ([.extractOp "runtime.tar.gz" "out",
        .extractOp "out/runtime.tar" "out",
        .removeOp "out/runtime.tar"], .ok "out") ∧
    extractGenericRun "archive.rar" "out" = ([], .error .unknownExtension) := by
  refine ⟨(extract_generic_dispatch "app.zip" "out").1 (by decide), ?_, ?_⟩
  · have h := (extract_generic_dispatch "runtime.tar.gz" "out").2.1
      (by decide) (by decide)
    exact h.trans (by decide)
  · exact (extract_generic_dispatch "archive.rar" "out").2.2 (by decide) (by decide)

/-- Filesystem and subprocess steps around the temporary installer
script in buildNsisTarget, buildNsis7zTarget and buildNsisDiffUpdater:
writeFileAsync(script, data), then nsisBuild, then removeAsync(script). -/
inductive ScriptOp where
  | writeScriptFile (path : String)
  | compileInstaller (path : String)
  | removeFile (path : String)
  deriving DecidableEq, Repr

/-- Script lifecycle shared by the three installer builders: the script
is written, nsisBuild runs, and removeAsync(script) is awaited next in
straight-line code; there is no try/finally, so when nsisBuild rejects,
the error propagates and the removal step is never reached. The
compiler's outcome is passed in as compileResult. -/
def installerScriptOps (script : String)
    (compileResult : Except BuildErr Unit) :
    List ScriptOp × Except BuildErr Unit :=
  match compileResult with
  | .ok _ =>
    ([.writeScriptFile script, .compileInstaller script, .removeFile script],
      .ok ())
  | .error e =>
    ([.writeScriptFile script, .compileInstaller script], .error e)

/-- C5 counterexample: when compilation of tmp.nsi fails, the executed
steps are only the write and the compile attempt; the temporary script is
not deleted, and the error propagates. This refutes the claim that the
script is deleted both when compilation succeeds and when it fails. -/
theorem installer_script_cleanup_cex :
    ScriptOp.removeFile "tmp.nsi" ∉
      (installerScriptOps "tmp.nsi" (.error (.exitCode 1))).1 ∧
    (installerScriptOps "tmp.nsi" (.error (.exitCode 1))).2 =
      .error (.exitCode 1) := by
  decide

/-- C5 amended: for every installer or updater build, the temporary
script file is deleted when the installer compiler succeeds (as the last
step, after compilation); when compilation fails, the failure propagates
before the deletion and the script file is left behind. -/
theorem installer_script_cleanup_amended (script : String) (e : BuildErr) :
    installerScriptOps script (.ok ()) =
      ([.writeScriptFile script, .compileInstaller script,
        .removeFile script], .ok ()) ∧
    installerScriptOps script (.error e) =
      ([.writeScriptFile script, .compileInstaller script], .error e) ∧
    ScriptOp.removeFile script ∉ (installerScriptOps script (.error e)).1 := by
  refine ⟨rfl, rfl, ?_⟩
  intro h
  simp [installerScriptOps] at h

/-- Result of extract in util/archive.ts as a function of the archiver
subprocess exit code: exit 2 throws ERROR_PATH_NOT_FOUND carrying the
archive path, any other non-zero exit throws ERROR_EXIT_CODE carrying the
code, and exit 0 returns the destination. -/
def extractRun (code : Nat) (archive dest : String) : Except BuildErr String :=
  if code = 2 then .error (.pathNotFound archive)
  else if code ≠ 0 then .error (.exitCode code)
  else .ok dest

/-- Result of compress in util/archive.ts as a function of the archiver
subprocess exit code: the function performs no check and returns the exit
code to its caller (whose call sites discard the returned value). -/
def compressRun (code : Nat) : Except BuildErr Nat :=
  .ok code

/-- C6 counterexample: a compression invocation whose archiver exits with
code 1 reports success (it returns the code instead of raising), and an
extraction whose archiver exits with code 2 raises an error carrying the
archive path, not the exit code. This refutes the claim that every
non-zero archiver exit raises a tool-failure error carrying that exit
code and that the operation never reports success on a non-zero exit. -/
theorem archiver_exit_cex :
    compressRun 1 = .ok 1 ∧
    (compressRun 1).isOk = true ∧
    extractRun 2 "app.zip" "out" = .error (.pathNotFound "app.zip") := by
  decide

/-- C6 amended: an extraction invocation with a non-zero archiver exit
never succeeds: exit code 2 raises ERROR_PATH_NOT_FOUND carrying the
archive path, and any other non-zero code raises ERROR_EXIT_CODE carrying
that code, aborting the task; a compression invocation performs no exit
check and returns the code to a caller that ignores it, so compression
reports success even on a non-zero exit. -/
theorem archiver_exit_amended (code : Nat) (archive dest : String)
    (h : code ≠ 0) :
    (extractRun code archive dest).isOk = false ∧
    extractRun code archive dest =
      (if code = 2 then .error (.pathNotFound archive)
       else .error (.exitCode code)) ∧
    compressRun code = .ok code := by
  by_cases h2 : code = 2 <;>
    simp [extractRun, compressRun, h, h2, Except.isOk, Except.toBool]

/-- Witness for archiver_exit_amended at exit codes 3 and 2. -/
theorem archiver_exit_amended_witness :
    (3 : Nat) ≠ 0 ∧
    extractRun 3 "a.zip" "out" = .error (.exitCode 3) ∧
    (extractRun 2 "a.zip" "out").isOk = false ∧
    compressRun 3 = .ok 3 := by
  have h3 := archiver_exit_amended 3 "a.zip" "out" (by decide)
  have h2 := archiver_exit_amended 2 "a.zip" "out" (by decide)
  exact ⟨by decide, h3.2.1.trans (by decide), h2.1, h3.2.2⟩

/-- Info.plist contents seen by updatePlist: the four descriptor keys it
writes plus all remaining entries untouched. -/
structure Plist where
  CFBundleIdentifier : String
  CFBundleName : String
  CFBundleDisplayName : String
  CFBundleVersion : String
  CFBundleShortVersionString : String
  others : List (String × String)
  deriving DecidableEq, Repr

/-- Mac-relevant fields of BuildConfig used by updatePlist. -/
structure MacConfig where
  appId : String
  name : String
  displayName : String
  version : String
  deriving DecidableEq, Repr

/-- Field rewrites performed by Builder.updatePlist: bundle identifier,
name, display name, and the version written to both the long and short
version fields; everything else is left as parsed. -/
def updatePlist (p : Plist) (config : MacConfig) : Plist :=
  { p with
    CFBundleIdentifier := config.appId,
    CFBundleName := config.name,
    CFBundleDisplayName := config.displayName,
    CFBundleVersion := config.version,
    CFBundleShortVersionString := config.version }

/-- Encoding chosen by Builder.readPlist for the property-list file: the
file is read with a fixed utf-8 encoding whatever its bytes are. -/
def readPlistEncoding (_data : List Nat) : String := "utf-8"

/-- Two-byte UTF-16LE spelling of the ASCII letters CF
(Buffer.from with hex digits 43004600). -/
def utf16CFBytes : List Nat := [0x43, 0x00, 0x46, 0x00]

/-- Buffer.indexOf(pattern) >= 0: the pattern occurs as a contiguous
byte run inside the data. -/
def containsSeq (pattern data : List Nat) : Bool :=
  data.tails.any (fun t => pattern.isPrefixOf t)

/-- Encoding detection in Builder.fixMacMeta, applied to each
InfoPlist.strings file: ucs2 when the raw bytes contain the UTF-16
spelling of CF, utf-8 otherwise; the rewritten contents are encoded back
with this same detected encoding. -/
def detectEncoding (data : List Nat) : String :=
  if containsSeq utf16CFBytes data then "ucs2" else "utf-8"

/-- C7 counterexample: on a byte buffer that contains the UTF-16 spelling
of CF, the detection heuristic picks ucs2, but readPlist still reads the
property-list file as utf-8: the plist encoding is not determined by the
CF byte scan, which the code applies only to the InfoPlist.strings files
in fixMacMeta. -/
theorem mac_plist_encoding_cex :
    detectEncoding [0x43, 0x00, 0x46, 0x00] = "ucs2" ∧
    readPlistEncoding [0x43, 0x00, 0x46, 0x00] = "utf-8" ∧
    readPlistEncoding [0x43, 0x00, 0x46, 0x00] ≠
      detectEncoding [0x43, 0x00, 0x46, 0x00] := by
  decide

/-- C7 amended: Mac prepare rewrites the four descriptor fields (bundle
identifier, name, display name, and the version into both the long and
short version fields) inside the property-list file, which is read with a
fixed utf-8 encoding regardless of its bytes; the CF-byte-scan heuristic
(UTF-16 when the two-byte spelling of CF is found, UTF-8 otherwise)
instead governs the localized InfoPlist.strings files rewritten by
fixMacMeta, each written back in its detected encoding. -/
theorem mac_prepare_plist_amended (p : Plist) (config : MacConfig)
    (data : List Nat) (h : containsSeq utf16CFBytes data = true) :
    updatePlist p config =
      { CFBundleIdentifier := config.appId,
        CFBundleName := config.name,
        CFBundleDisplayName := config.displayName,
        CFBundleVersion := config.version,
        CFBundleShortVersionString := config.version,
        others := p.others } ∧
    readPlistEncoding data = "utf-8" ∧
    (∀ other : List Nat, readPlistEncoding data = readPlistEncoding other) ∧
    detectEncoding data = "ucs2" ∧
    (∀ other : List Nat, containsSeq utf16CFBytes other = false →
      detectEncoding other = "utf-8") := by
  refine ⟨rfl, rfl, fun other => rfl, ?_, fun other ho => ?_⟩
  · simp [detectEncoding, h]
  · simp [detectEncoding, ho]

/-- Witness for mac_prepare_plist_amended on a buffer holding exactly the
UTF-16 spelling of CF. -/
theorem mac_prepare_plist_amended_witness :
    containsSeq utf16CFBytes [0x43, 0x00, 0x46, 0x00] = true ∧
    updatePlist ⟨"a", "b", "c", "d", "e", []⟩ ⟨"id", "n", "dn", "1.2.3"⟩ =
      ⟨"id", "n", "dn", "1.2.3", "1.2.3", []⟩ ∧
    readPlistEncoding [0x43, 0x00, 0x46, 0x00] = "utf-8" ∧
    detectEncoding [0x43, 0x00, 0x46, 0x00] = "ucs2" := by
  have h := mac_prepare_plist_amended ⟨"a", "b", "c", "d", "e", []⟩
      ⟨"id", "n", "dn", "1.2.3"⟩ [0x43, 0x00, 0x46, 0x00] (by decide)
  exact ⟨by decide, h.1, h.2.1, h.2.2.2.1⟩

/-- Phases of buildDirTarget for one task, in the order they are awaited. -/
inductive DirPhase where
  | emptyTargetDir
  | copyRuntime
  | ffmpegPhase
  | ensureAppRoot
  | prepare
  | copyAppFiles
  | renameApp
  deriving DecidableEq, Repr

/-- Resource-root suffix selected at the top of buildDirTarget; an
unrecognized platform token throws ERROR_UNKNOWN_PLATFORM here, before
any filesystem work. -/
def appRootSuffix (platform : String) : Except BuildErr String :=
  match platform with
  | "win32" | "win" | "linux" => .ok "./"
  | "darwin" | "osx" | "mac" => .ok "./nwjs.app/Contents/Resources/app.nw/"
  | _ => .error .unknownPlatform

/-- Per-platform dispatch at the end of buildDirTarget: each recognized
platform awaits its prepare step, then copyFiles, then its rename step. -/
def platformPipeline (platform : String) : Except BuildErr (List DirPhase) :=
  match platform with
  | "win32" | "win" => .ok [.prepare, .copyAppFiles, .renameApp]
  | "darwin" | "osx" | "mac" => .ok [.prepare, .copyAppFiles, .renameApp]
  | "linux" => .ok [.prepare, .copyAppFiles, .renameApp]
  | _ => .error .unknownPlatform

/-- Full phase sequence of buildDirTarget: resolve the resource root,
empty the target directory, copy the runtime, integrate FFmpeg when
configured, ensure the resource root, then run the platform pipeline. -/
def buildDirTargetPhases (platform : String) (ffmpegIntegration : Bool) :
    Except BuildErr (List DirPhase) := do
  let _ ← appRootSuffix platform
  let pipeline ← platformPipeline platform
  return [.emptyTargetDir, .copyRuntime]
    ++ (if ffmpegIntegration then [.ffmpegPhase] else [])
    ++ [.ensureAppRoot] ++ pipeline

/-- C8: for every task on every recognized platform (with or without
FFmpeg integration), the directory-bundle pipeline runs its three key
phases exactly once each and in strict order: prepare completes before
any application file is copied, and the rename starts only after the
copy; patch never follows copy and rename never precedes copy. -/
theorem dir_target_phase_order (platform : String) (ff : Bool)
    (h : platform ∈ recognizedPlatforms) :
    ∃ phases, buildDirTargetPhases platform ff = .ok phases ∧
      phases.count DirPhase.prepare = 1 ∧
      phases.count DirPhase.copyAppFiles = 1 ∧
      phases.count DirPhase.renameApp = 1 ∧
      phases.indexOf DirPhase.prepare < phases.indexOf DirPhase.copyAppFiles ∧
      phases.indexOf DirPhase.copyAppFiles < phases.indexOf DirPhase.renameApp := by
  fin_cases h <;> cases ff <;>
    exact ⟨_, rfl, by decide, by decide, by decide, by decide, by decide⟩

/-- Witness for dir_target_phase_order on a mac task with FFmpeg
integration enabled. -/
theorem dir_target_phase_order_witness :
    ∃ phases, buildDirTargetPhases "mac" true = .ok phases ∧
      phases.count DirPhase.prepare = 1 ∧
      phases.count DirPhase.copyAppFiles = 1 ∧
      phases.count DirPhase.renameApp = 1 ∧
      phases.indexOf DirPhase.prepare < phases.indexOf DirPhase.copyAppFiles ∧
      phases.indexOf DirPhase.copyAppFiles < phases.indexOf DirPhase.renameApp :=
  dir_target_phase_order "mac" true (by decide)

/-- Collection-relevant fields of BuildConfig used by copyFiles. -/
structure CollectConfig where
  files : List String
  excludes : List String
  output : String

/-- Fixed generic exclusion globs declared at the top of copyFiles. -/
def generalExcludes : List String :=
  ["**/node_modules/.bin",
   "**/node_modules/*/\x7b example, examples, test, tests \x7d",
   "**/\x7b .DS_Store, .git, .hg, .svn, *.log \x7d"]

/-- Layered ignore list assembled by copyFiles: configured excludes,
generic excludes, per-dependency excludes, then the output directory
itself and everything below it. -/
def ignorePatterns (config : CollectConfig)
    (dependenciesExcludes : List String) : List String :=
  config.excludes ++ generalExcludes ++ dependenciesExcludes
    ++ [config.output, config.output ++ "/**/*"]

/-- Modelled from the spec: the external glob engine (globby) behind
copyFiles is absent from the sources; per its contract stated in the
spec, collection returns the candidate paths matched by at least one
include pattern and by no ignore pattern, for an arbitrary matching
relation between patterns and paths. -/
def collectFiles (globMatch : String → String → Bool)
    (config : CollectConfig) (dependenciesExcludes : List String)
    (paths : List String) : List String :=
  paths.filter (fun p =>
    config.files.any (fun pat => globMatch pat p) &&
    !((ignorePatterns config dependenciesExcludes).any
        (fun pat => globMatch pat p)))

/-- C9: for every configuration, dependency-exclusion list and candidate
path set, a path matched by any ignore pattern (configured exclude,
generic exclude, dependency exclude, or the output-directory patterns) is
never selected for shipping, even when it is also matched by an inclusion
pattern; in particular the configured output directory is never selected
whenever the output-directory pattern globMatch it. -/
theorem collector_excludes_output (globMatch : String → String → Bool)
    (config : CollectConfig) (dependenciesExcludes : List String)
    (paths : List String) (p : String)
    (h : ∃ pat ∈ ignorePatterns config dependenciesExcludes,
      globMatch pat p = true) :
    p ∉ collectFiles globMatch config dependenciesExcludes paths ∧
    (globMatch config.output config.output = true →
      config.output ∉ collectFiles globMatch config dependenciesExcludes paths) := by
  constructor
  · intro hp
    obtain ⟨pat, hpat, hm⟩ := h
    simp [collectFiles, List.mem_filter] at hp
    simp [hp.2.2 pat hpat] at hm
  · intro hout hp
    simp [collectFiles, List.mem_filter] at hp
    have hfalse := hp.2.2 config.output (by simp [ignorePatterns])
    simp [hfalse] at hout

/-- Witness for collector_excludes_output: the output directory dist is
matched by an include pattern, yet collection drops it. -/
theorem collector_excludes_output_witness :
    (∃ pat ∈ ignorePatterns ⟨["dist"], [], "dist"⟩ [], (pat == "dist") = true) ∧
    "dist" ∉ collectFiles (fun pat p => pat == p) ⟨["dist"], [], "dist"⟩ [] ["dist"] := by
  refine ⟨⟨"dist", by decide, by decide⟩, ?_⟩
  exact (collector_excludes_output (fun pat p => pat == p)
    ⟨["dist"], [], "dist"⟩ [] ["dist"] "dist" ⟨"dist", by decide, by decide⟩).1

/-- Partial options object literal built in the concurrent branch of
Builder.build; absent fields are absent own properties. -/
structure PartialOptions where
  win : Option Bool := none
  mac : Option Bool := none
  linux : Option Bool := none
  x86 : Option Bool := none
  x64 : Option Bool := none
  chromeApp : Option Bool := none
  mirror : Option String := none
  concurrent : Option Bool := none
  mute : Option Bool := none

/-- Modelled from the spec: mergeOptions (from util, absent from the
sources) overlays the caller's own properties onto the defaults, field by
field, as the Builder constructor does with DEFAULT_OPTIONS. -/
def mergeOptions (defaults : BuilderOptions) (options : PartialOptions) :
    BuilderOptions :=
  { win := options.win.getD defaults.win,
    mac := options.mac.getD defaults.mac,
    linux := options.linux.getD defaults.linux,
    x86 := options.x86.getD defaults.x86,
    x64 := options.x64.getD defaults.x64,
    chromeApp := options.chromeApp.getD defaults.chromeApp,
    mirror := options.mirror.getD defaults.mirror,
    concurrent := options.concurrent.getD defaults.concurrent,
    mute := options.mute.getD defaults.mute }

/-- Modelled from the spec: default mirror URL taken from the runtime
downloader; its value is irrelevant to the claims since the concurrent
branch always overrides the mirror. -/
def DEFAULT_MIRROR : String := "https://dl.nwjs.io/"

/-- Builder.DEFAULT_OPTIONS: all platform, architecture and manifest-kind
flags off, downloader default mirror, concurrency off, quiet on. -/
def DEFAULT_OPTIONS : BuilderOptions :=
  { win := false, mac := false, linux := false, x86 := false, x64 := false,
    chromeApp := false, mirror := DEFAULT_MIRROR, concurrent := false,
    mute := true }

/-- Dynamic own-property write options[name] = true used for the platform
and architecture tokens of a dispatched task. -/
def setPartialFlag (o : PartialOptions) : String → PartialOptions
  | "win" => { o with win := some true }
  | "mac" => { o with mac := some true }
  | "linux" => { o with linux := some true }
  | "x86" => { o with x86 := some true }
  | "x64" => { o with x64 := some true }
  | _ => o

/-- Sub-configuration built for one dispatched (platform, arch) task in
the concurrent branch of Builder.build, after the sub-Builder constructor
merges it over DEFAULT_OPTIONS: the two flags are set, the parent mirror
is copied, concurrency is disabled, output is muted; nothing else (in
particular not chromeApp) is propagated. -/
def concurrentChildOptions (parent : BuilderOptions)
    (platform arch : String) : BuilderOptions :=
  let o := setPartialFlag (setPartialFlag {} platform) arch
  mergeOptions DEFAULT_OPTIONS
    { o with mirror := some parent.mirror, concurrent := some false,
             mute := some true }

/-- Manifest file read by the sequential branch of Builder.build:
manifest.json when chromeApp is set, package.json otherwise. -/
def manifestFile (o : BuilderOptions) : String :=
  if o.chromeApp then "manifest.json" else "package.json"

/-- C10: in concurrent mode, the sub-configuration of each dispatched
task holds exactly its own platform flag and its own architecture flag,
the parent's mirror, concurrency disabled, and quiet output forced on
regardless of the parent's settings; chromeApp is not propagated, so
every concurrent sub-build reads package.json rather than the app
manifest. -/
theorem concurrent_child_options_exact (parent : BuilderOptions)
    (platform arch : String)
    (hp : platform ∈ platformNames) (ha : arch ∈ archNames) :
    concurrentChildOptions parent platform arch =
      { win := platform == "win", mac := platform == "mac",
        linux := platform == "linux",
        x86 := arch == "x86", x64 := arch == "x64",
        chromeApp := false, mirror := parent.mirror,
        concurrent := false, mute := true } ∧
    manifestFile (concurrentChildOptions parent platform arch) =
      "package.json" := by
  fin_cases hp <;> fin_cases ha <;> exact ⟨rfl, rfl⟩

/-- Witness for concurrent_child_options_exact: a chromeApp, loud,
concurrent parent dispatching the (win, x64) task. -/
theorem concurrent_child_options_exact_witness :
    concurrentChildOptions
        ⟨true, true, false, true, true, true, "mirror.example", true, false⟩
        "win" "x64" =
      ⟨true, false, false, false, true, false, "mirror.example", false, true⟩ ∧
    manifestFile (concurrentChildOptions
        ⟨true, true, false, true, true, true, "mirror.example", true, false⟩
        "win" "x64") = "package.json" := by
  have h := concurrent_child_options_exact
      ⟨true, true, false, true, true, true, "mirror.example", true, false⟩
      "win" "x64" (by decide) (by decide)
  exact ⟨h.1.trans (by decide), h.2⟩

/-- Prerelease identifier of a semantic version: numeric identifiers
compare numerically and precede alphanumeric ones, which compare
lexically. -/
inductive PreId where
  | num (n : Nat)
  | alpha (s : String)
  deriving DecidableEq, Repr

/-- Three-way comparison on naturals via the order relation. -/
def natCmp (a b : Nat) : Ordering :=
  if a < b then .lt else if b < a then .gt else .eq

/-- Three-way comparison on strings via the lexical order relation. -/
def strCmp (a b : String) : Ordering :=
  if a == b then .eq else if a < b then .lt else .gt

def preIdCmp : PreId → PreId → Ordering
  | .num a, .num b => natCmp a b
  | .num _, .alpha _ => .lt
  | .alpha _, .num _ => .gt
  | .alpha a, .alpha b => strCmp a b

/-- Elementwise comparison of prerelease identifier lists; when one list
is a strict prefix of the other, the shorter precedes. -/
def preListCmp : List PreId → List PreId → Ordering
  | [], [] => .eq
  | [], _ :: _ => .lt
  | _ :: _, [] => .gt
  | a :: as, b :: bs =>
    match preIdCmp a b with
    | .eq => preListCmp as bs
    | o => o

/-- Semantic version: major.minor.patch plus an optional prerelease
suffix (empty when the version is a release); build metadata is ignored
by ordering and omitted. -/
structure SemVer where
  major : Nat
  minor : Nat
  patch : Nat
  pre : List PreId
  deriving DecidableEq, Repr

/-- Modelled from the spec: comparison of the external semver library
(absent from the sources) per semantic-versioning rules: compare
major, then minor, then patch; on a tie a release outranks any
prerelease and prereleases compare by their identifier lists. -/
def semverCmp (a b : SemVer) : Ordering :=
  match natCmp a.major b.major with
  | .eq =>
    match natCmp a.minor b.minor with
    | .eq =>
      match natCmp a.patch b.patch with
      | .eq =>
        match a.pre, b.pre with
        | [], [] => .eq
        | [], _ :: _ => .gt
        | _ :: _, [] => .lt
        | p, q => preListCmp p q
      | o => o
    | o => o
  | o => o

/-- semver.gt(a, b): a compares strictly greater than b. -/
def semverGt (a b : SemVer) : Bool := semverCmp a b == .gt

/-- semver.lt(a, b), equivalently semver.gt(b, a): a compares strictly
less than b. -/
def semverLt (a b : SemVer) : Bool := semverGt b a

theorem natCmp_self (n : Nat) : natCmp n n = .eq := by
  simp [natCmp]

theorem strCmp_self (s : String) : strCmp s s = .eq := by
  simp [strCmp]

theorem preIdCmp_self (x : PreId) : preIdCmp x x = .eq := by
  cases x <;> simp [preIdCmp, natCmp_self, strCmp_self]

theorem preListCmp_self (l : List PreId) : preListCmp l l = .eq := by
  induction l with
  | nil => rfl
  | cons x xs ih => simp [preListCmp, preIdCmp_self, ih]

theorem semverCmp_self (v : SemVer) : semverCmp v v = .eq := by
  unfold semverCmp
  rw [natCmp_self, natCmp_self, natCmp_self]
  cases h : v.pre with
  | nil => rfl
  | cons x xs => simp [preListCmp_self]

theorem semverGt_irrefl (v : SemVer) : semverGt v v = false := by
  unfold semverGt
  rw [semverCmp_self]
  rfl

/-- Modelled from the spec: NsisVersionInfo.addVersion records the
version under build in the ledger before the updater loop; entries are
keyed by version, so re-adding an existing version keeps a single entry. -/
def addVersion (registry : List SemVer) (version : SemVer) : List SemVer :=
  if registry.contains version then registry else registry ++ [version]

/-- Updater generation shared by buildNsisTarget and buildNsis7zTarget:
after addVersion for the version under build, when config.nsis.
diffUpdaters is set, buildNsisDiffUpdater runs for every registry version
with semver.gt(current, version), producing a (fromVersion, toVersion)
updater; with the flag unset the loop is skipped entirely. -/
def buildNsisUpdaters (diffUpdaters : Bool) (registry : List SemVer)
    (current : SemVer) : List (SemVer × SemVer) :=
  if diffUpdaters then
    ((addVersion registry current).filter
      (fun version => semverGt current version)).map
      (fun version => (version, current))
  else []

theorem mem_addVersion (registry : List SemVer) (c v : SemVer) :
    v ∈ addVersion registry c ↔ v ∈ registry ∨ v = c := by
  unfold addVersion
  by_cases h : c ∈ registry
  · rw [if_pos (by simpa using h)]
    constructor
    · exact fun hv => Or.inl hv
    · rintro (hv | rfl)
      · exact hv
      · exact h
  · rw [if_neg (by simpa using h)]
    simp

/-- C2: with differential updates enabled, an installer-target build
produces one differential updater to the version under build from
exactly those versions in the registry that are strictly less than it
under semantic-version ordering (none from the version itself, which the
build has just recorded, and none from greater-or-equal versions), and
with differential updates disabled it produces none. -/
theorem nsis_diff_updaters_exact (d : Bool) (registry : List SemVer)
    (current v : SemVer) :
    ((v, current) ∈ buildNsisUpdaters d registry current ↔
      d = true ∧ v ∈ registry ∧ semverLt v current = true) ∧
    (∀ u ∈ buildNsisUpdaters d registry current,
      u.2 = current ∧ semverLt u.1 current = true) ∧
    buildNsisUpdaters false registry current = [] := by
  have hunfold : buildNsisUpdaters true registry current =
      ((addVersion registry current).filter
        (fun version => semverGt current version)).map
        (fun version => (version, current)) := rfl
  refine ⟨?_, ?_, rfl⟩
  · cases d with
    | false => simp [buildNsisUpdaters]
    | true =>
      rw [hunfold, List.mem_map]
      constructor
      · rintro ⟨a, ha, heq⟩
        rw [List.mem_filter] at ha
        obtain ⟨hmem, hgt⟩ := ha
        have hav : a = v := congrArg Prod.fst heq
        subst hav
        rcases (mem_addVersion registry current a).mp hmem with hv | rfl
        · exact ⟨rfl, hv, hgt⟩
        · rw [semverGt_irrefl] at hgt
          exact absurd hgt (by simp)
      · rintro ⟨-, hv, hlt⟩
        refine ⟨v, ?_, rfl⟩
        rw [List.mem_filter]
        exact ⟨(mem_addVersion registry current v).mpr (Or.inl hv), hlt⟩
  · cases d with
    | false => simp [buildNsisUpdaters]
    | true =>
      intro u hu
      rw [hunfold, List.mem_map] at hu
      obtain ⟨a, ha, rfl⟩ := hu
      rw [List.mem_filter] at ha
      exact ⟨rfl, ha.2⟩

/-- Witness for nsis_diff_updaters_exact: registry holding 1.0.0 and
1.1.0 while building 1.2.0 with updaters enabled yields updaters from
1.0.0 and 1.1.0 only; disabling the flag yields none. -/
theorem nsis_diff_updaters_exact_witness :
    buildNsisUpdaters true [⟨1, 0, 0, []⟩, ⟨1, 1, 0, []⟩] ⟨1, 2, 0, []⟩ =
      [(⟨1, 0, 0, []⟩, ⟨1, 2, 0, []⟩), (⟨1, 1, 0, []⟩, ⟨1, 2, 0, []⟩)] ∧
    ((⟨1, 0, 0, []⟩, ⟨1, 2, 0, []⟩) ∈
      buildNsisUpdaters true [⟨1, 0, 0, []⟩, ⟨1, 1, 0, []⟩] ⟨1, 2, 0, []⟩ ↔
      (true = true ∧ (⟨1, 0, 0, []⟩ : SemVer) ∈ [⟨1, 0, 0, []⟩, ⟨1, 1, 0, []⟩] ∧
        semverLt ⟨1, 0, 0, []⟩ ⟨1, 2, 0, []⟩ = true)) ∧
    buildNsisUpdaters false [⟨1, 0, 0, []⟩, ⟨1, 1, 0, []⟩] ⟨1, 2, 0, []⟩ = [] := by
  have h := nsis_diff_updaters_exact true [⟨1, 0, 0, []⟩, ⟨1, 1, 0, []⟩]
      ⟨1, 2, 0, []⟩ ⟨1, 0, 0, []⟩
  exact ⟨by decide, h.1,
    nsis_diff_updaters_exact false [⟨1, 0, 0, []⟩, ⟨1, 1, 0, []⟩]
      ⟨1, 2, 0, []⟩ ⟨1, 0, 0, []⟩ |>.2.2⟩

end NwBuilder
